import Mathlib

/-
Verification of the core of the `nucleus` work-order tracker.

This file shallowly embeds the record store and domain model of the
repository (Python sources `work_orders.py`, `job_io.py`, `job_folder.py`,
`menu.py`, `context.py`) and proves or refutes the frozen specification
claims about them.

Modelling conventions:
- Python dictionaries are embedded as association lists with
  lookup / overwrite-insert / erase operations (`dlookup`, `dinsert`,
  `derase`); the store's on-disk state is a record `FS` holding the
  directory listing of `Path.JOBS` together with the contents of the
  pickled `.nuke` record files.
- `cPickle` serialization followed by deserialization is modelled as the
  identity on the `Job` value, which is the observable behaviour the
  claims are about.
- Functions that can raise in Python return `Option` / `Except` here;
  the Python class `JobIO` is embedded as the namespace `JobIo`.
- `datetime.now()` is passed in explicitly as the `today` string.
-/

namespace Nucleus

/-! ### Python-style helpers -/

/-- Python truthiness of an `Option Bool` result (`None` is falsy). -/
def pyTruthy : Option Bool → Bool
  | none => false
  | some b => b

/-- Python `needle in hay` substring containment on strings. -/
def isSubstr (needle hay : String) : Bool :=
  hay.toList.tails.any (fun t => needle.toList.isPrefixOf t)

/-! ### Dictionary model

Python `dict` operations on association lists: `dlookup` is `d[k]`
(as an `Option`), `dinsert` is `d[k] = v` (overwrite or append), and
`derase` is `del d[k]`. -/

def dlookup {α : Type} (k : String) : List (String × α) → Option α
  | [] => none
  | (k2, v) :: rest => if k2 = k then some v else dlookup k rest

def dmem {α : Type} (k : String) (d : List (String × α)) : Bool :=
  (dlookup k d).isSome

def dinsert {α : Type} (k : String) (v : α) (d : List (String × α)) :
    List (String × α) :=
  if dmem k d then
    d.map (fun kv => if kv.1 = k then (k, v) else kv)
  else
    d ++ [(k, v)]

def derase {α : Type} (k : String) (d : List (String × α)) :
    List (String × α) :=
  d.filter (fun kv => kv.1 ≠ k)

/-! ### Domain model (`work_orders.py`) -/

/-- `WorkOrderConstants.STATUS_LIST`. -/
def STATUS_LIST : List String :=
  ["Unassigned", "In Process", "On Hold", "At Review", "Completed"]

/-- `WorkOrderConstants.STATUS_LIST[-1]`, the terminal status. -/
def completedStatus : String := STATUS_LIST.getLastD ""

/-- `NoteDict`: an ordered mapping of note labels to note text.  New
instances start with the single entry labelled `"Work Instructions"`. -/
structure NoteDict where
  data : List (String × String)
deriving DecidableEq, Repr

/-- `NoteDict.__init__`. -/
def NoteDict.init (note : String) : NoteDict :=
  ⟨[("Work Instructions", note)]⟩

/-- `NoteDict.add`; the timestamp-plus-author stamp is passed in since it
comes from the wall clock. -/
def NoteDict.add (nd : NoteDict) (stamp note : String) : NoteDict :=
  ⟨dinsert stamp note nd.data⟩

/-- `Project`: one released work order. -/
structure Project where
  alias_num : String
  owner : String
  due_date : String
  status : String
  notes : NoteDict
deriving DecidableEq, Repr

/-- `Project.__init__`. -/
def Project.init (alias_num work_instructions owner due_date status : String) :
    Project :=
  ⟨alias_num, owner, due_date, status, NoteDict.init work_instructions⟩

/-- A `Job.projects` mapping: `Project` values keyed by drawing number. -/
abbrev ProjectDict := List (String × Project)

/-- `Job`: a collection of work orders under one 6-digit job number. -/
structure Job where
  job_num : String
  workspace : String
  projects : ProjectDict
deriving DecidableEq, Repr

/-- `Job.__init__`. -/
def Job.init (job_num workspace : String) : Job :=
  ⟨job_num, workspace, []⟩

/-- `Job.add_project`. -/
def Job.add_project (j : Job)
    (alias_num work_instructions owner due_date status : String) : Job :=
  { j with
    projects :=
      dinsert alias_num
        (Project.init alias_num work_instructions owner due_date status)
        j.projects }

/-! ### Record-store state (`Path.JOBS` on disk)

`files` is the directory listing seen by `os.listdir(Path.JOBS)`;
`nuke` gives the unpickled content of each `<job_num>.nuke` record file
(`none` when the file is absent). -/

structure FS where
  files : List String
  nuke : String → Option Job

/-- Errors raised by the embedded Python code. -/
inductive PyError where
  | ioError
  | eofError
  | jobNumberError
  | existingJobError
  | securityError
deriving DecidableEq, Repr

/-- Add a filename to a directory listing (creating an already-present
file leaves the listing unchanged). -/
def listAdd (f : String) (l : List String) : List String :=
  if f ∈ l then l else l ++ [f]

namespace JobIo

/-- `JobIO.job_exists`: scan the directory listing for a filename
containing `job_num`; return `True` at the first hit, fall off the end
(returning `None`) otherwise. -/
def job_exists (job_num : String) : List String → Option Bool
  | [] => none
  | f :: rest => if isSubstr job_num f then some true else job_exists job_num rest

/-- `JobIO.save`: overwrite `<job_num>.nuke` with the pickled `job`. -/
def save (job_num : String) (job : Job) (fs : FS) : FS :=
  { files := listAdd (job_num ++ ".nuke") fs.files
    nuke := fun f => if f = job_num then some job else fs.nuke f }

/-- `JobIO.get`: unpickle `<job_num>.nuke`; raises `IOError` when the
file is absent. -/
def get (job_num : String) (fs : FS) : Except PyError Job :=
  match fs.nuke job_num with
  | some job => Except.ok job
  | none => Except.error PyError.ioError

/-- `JobIO.init_files`: create the empty `<job_num>.lock` marker, then
save a fresh empty `Job`. -/
def init_files (job_num workspace : String) (fs : FS) : FS :=
  save job_num (Job.init job_num workspace)
    { fs with files := listAdd (job_num ++ ".lock") fs.files }

end JobIo

/-- `NewJobRequest._validate_job_num` followed by `JobIO.init_files`
(`menu.py`): reject a job number that is not 6 characters, reject an
already-existing job, otherwise create the files. -/
def createJob (job_num workspace : String) (fs : FS) : Except PyError FS :=
  if job_num.length ≠ 6 then
    Except.error PyError.jobNumberError
  else if pyTruthy (JobIo.job_exists job_num fs.files) then
    Except.error PyError.existingJobError
  else
    Except.ok (JobIo.init_files job_num workspace fs)

/-! ### Snapshot aggregator (`job_io.py`)

The race the spec discusses lives between two filesystem samples: the
directory `listing` seen by `os.listdir` during enumeration, and the
`records` map giving each job's `.nuke` content at the moment
`shutil.copy` runs.  A record deleted in between is present in
`listing` but maps to `none` in `records`. -/

namespace JobIo

/-- `JobIO.active_job_nums`: the set of `f[:6]` prefixes of the listing. -/
def active_job_nums (listing : List String) : List String :=
  (listing.map (fun f => f.take 6)).dedup

/-- The copy loop of `JobIO.active_job_temp_files`: `shutil.copy` each
job's `.nuke` record into the temp directory; a vanished source file
makes `shutil.copy` raise `IOError`. -/
def copy_jobs (records : String → Option Job) :
    List String → Except PyError (List (String × Job))
  | [] => Except.ok []
  | j :: rest =>
    match records j with
    | none => Except.error PyError.ioError
    | some job =>
      match copy_jobs records rest with
      | Except.ok l => Except.ok ((j, job) :: l)
      | Except.error e => Except.error e

/-- `JobIO.active_job_temp_files`: enumerate active job numbers, then
copy each backing record to a temp slot.  Each returned pair is one temp
file: the job number it came from and the copied `Job` content. -/
def active_job_temp_files (listing : List String)
    (records : String → Option Job) : Except PyError (List (String × Job)) :=
  copy_jobs records (active_job_nums listing)

/-- `JobIO.existing_projects`: unpickle every temp file and merge all
project entries into one mapping, later jobs overwriting equal keys. -/
def existing_projects (listing : List String)
    (records : String → Option Job) : Except PyError ProjectDict :=
  match active_job_temp_files listing records with
  | Except.error e => Except.error e
  | Except.ok temps =>
    Except.ok
      (temps.foldl
        (fun acc jt =>
          jt.2.projects.foldl (fun a kv => dinsert kv.1 kv.2 a) acc)
        [])

end JobIo

/-! ### Concrete store states used in counterexamples and witnesses -/

/-- A project of job `111111`. -/
def sampleProject : Project :=
  Project.init "111111.01" "mill the casing" "Brandon" "01/01/2020" "Unassigned"

/-- A live job whose record is still readable. -/
def sampleJob : Job :=
  ⟨"111111", "W:/111111", [("111111.01", sampleProject)]⟩

/-- Directory listing enumerated while jobs `111111` and `222222` both
look active. -/
def raceListing : List String :=
  ["111111.nuke", "111111.lock", "222222.nuke", "222222.lock"]

/-- Record contents at copy time: job `222222`'s backing record has been
deleted by a concurrent close between enumeration and copy. -/
def raceRecords : String → Option Job :=
  fun j => if j = "111111" then some sampleJob else none

/-! ### Helper lemmas about `job_exists`, `isSubstr`, `listAdd` -/

theorem isPrefixOf_self_append (l t : List Char) : l.isPrefixOf (l ++ t) = true := by
  induction l with
  | nil => simp [List.isPrefixOf]
  | cons a as ih => simp [List.isPrefixOf, ih]

theorem any_tails_of_self {p : List Char → Bool} (l : List Char)
    (h : p l = true) : l.tails.any p = true := by
  cases l with
  | nil => simpa [List.tails] using h
  | cons a as => simp [List.tails_cons, h]

theorem isSubstr_append_right (s t : String) : isSubstr s (s ++ t) = true := by
  unfold isSubstr
  apply any_tails_of_self
  have hdata : (s ++ t).toList = s.toList ++ t.toList := by
    simp [String.toList]
  rw [hdata]
  exact isPrefixOf_self_append s.toList t.toList

theorem job_exists_eq_none {n : String} {l : List String}
    (h : ∀ f ∈ l, isSubstr n f = false) : JobIo.job_exists n l = none := by
  induction l with
  | nil => rfl
  | cons f rest ih =>
    have hf : isSubstr n f = false := h f (by simp)
    simp [JobIo.job_exists, hf]
    exact ih (fun g hg => h g (by simp [hg]))

theorem job_exists_eq_some_true {n : String} {l : List String}
    (h : ∃ f ∈ l, isSubstr n f = true) : JobIo.job_exists n l = some true := by
  induction l with
  | nil => simp at h
  | cons f rest ih =>
    by_cases hf : isSubstr n f = true
    · simp [JobIo.job_exists, hf]
    · obtain ⟨g, hg, hgs⟩ := h
      rcases List.mem_cons.mp hg with rfl | hgr
      · exact absurd hgs hf
      · simp [JobIo.job_exists, Bool.of_not_eq_true hf]
        exact ih ⟨g, hgr, hgs⟩

theorem job_exists_ne_some_false (n : String) (l : List String) :
    JobIo.job_exists n l ≠ some false := by
  induction l with
  | nil => simp [JobIo.job_exists]
  | cons f rest ih =>
    by_cases hf : isSubstr n f = true
    · simp [JobIo.job_exists, hf]
    · simpa [JobIo.job_exists, Bool.of_not_eq_true hf] using ih

theorem mem_listAdd_self (f : String) (l : List String) : f ∈ listAdd f l := by
  unfold listAdd
  by_cases h : f ∈ l
  · simp [h]
  · simp [h]

theorem mem_listAdd_of_mem {f g : String} {l : List String} (h : f ∈ l) :
    f ∈ listAdd g l := by
  unfold listAdd
  by_cases hg : g ∈ l <;> simp [hg, h]

/-! ### `JobFolder.save` (`job_folder.py`)

The folder holds the `Job` being edited and the `GateKeeper` lock that
came back from `JobIO.job_and_lock`; only the lock's acquired state is
relevant to `save`. -/

structure JobFolder where
  job_num : String
  job : Job
  lock_is_acquired : Bool

/-- `JobFolder.save`: write the job back to the store only when the
caller's lock is acquired, releasing the lock when closing; otherwise
raise `SecurityError`.  The `Bool` in the result is the lock's acquired
state after the call. -/
def JobFolder.save (jf : JobFolder) (fs : FS) (on_close : Bool) :
    Except PyError (FS × Bool) :=
  if jf.lock_is_acquired then
    Except.ok
      (JobIo.save jf.job_num jf.job fs,
       if on_close then false else jf.lock_is_acquired)
  else
    Except.error PyError.securityError

/-! ### Key rename (`ContextHandler._update_drawing_num`, `context.py`) -/

/-- `ContextHandler._update_drawing_num`: `projects[new] = projects[old]`
then `del projects[old]` when the keys differ.  A missing `old` key is a
Python `KeyError`, modelled as `none`. -/
def update_drawing_num (projects : ProjectDict) (old new : String) :
    Option ProjectDict :=
  match dlookup old projects with
  | none => none
  | some v =>
    let d := dinsert new v projects
    some (if old ≠ new then derase old d else d)

/-! ### Status transition handler (`ContextHandler.status`, `context.py`) -/

/-- `JobIO.is_dwg_num`: `text.count('-') == 3`. -/
def is_dwg_num (text : String) : Bool :=
  text.toList.count '-' == 3

/-- Failures of `Extract.issued_prints_folder` (`sulzer.extract`). -/
inductive DestError where
  | destinationError
  | projectsFolderRootError
deriving DecidableEq, Repr

/-- Python `str.split` with a one-character separator, on the character
list of the string (structural, so that concrete scenarios compute). -/
def splitChar (sep : Char) : List Char → List (List Char)
  | [] => [[]]
  | c :: rest =>
    let r := splitChar sep rest
    if c = sep then [] :: r
    else
      match r with
      | [] => [[c]]
      | t :: ts => (c :: t) :: ts

/-- The drawing number encoded in a PDF filename:
`filename.split('_')[0]`, i.e. everything before the first `'_'` (the
whole name when there is none). -/
def pdfKey (filename : String) : String :=
  String.mk ((splitChar '_' filename.toList).headD [])

/-- The `for pdf in pdfs` move loop of `ContextHandler.status`.  In the
source `actual_count` is incremented exactly when a key is appended to
`moved_dwg_nums`, so it always equals that list's length and the loop
here carries only the list.  Workspace walking and `os.path.basename`
are abstracted: each element of `pdfs` is one discovered PDF's
filename. -/
def movePdfs (selected : List String) (target : Nat) :
    List String → List String → List String
  | [], moved => moved
  | pdf :: rest, moved =>
    if moved.length < target then
      if pdfKey pdf ∈ selected then
        movePdfs selected target rest (moved ++ [pdfKey pdf])
      else
        movePdfs selected target rest moved
    else
      movePdfs selected target rest moved

/-- `projects[p].status = status` for one key (a present key is updated;
the claims only use present keys, where CPython would otherwise raise
`KeyError`). -/
def set_status_one (p st : String) (d : ProjectDict) : ProjectDict :=
  d.map (fun kv => if kv.1 = p then (kv.1, { kv.2 with status := st }) else kv)

/-- The `for p in selected_dwg_nums` status-assignment loop. -/
def set_statuses (selected : List String) (st : String)
    (projects : ProjectDict) : ProjectDict :=
  selected.foldl (fun d p => set_status_one p st d) projects

/-- Everything observable about one `ContextHandler.status` call: which
PDF keys were moved (one `shutil.move` per entry), which expected
drawing numbers were reported missing, the projects mapping afterwards,
and whether a destination-resolution error aborted the call. -/
structure StatusResult where
  moved_dwg_nums : List String
  missing_pdfs : List String
  projects : ProjectDict
  destError : Option DestError
deriving DecidableEq, Repr

namespace ContextHandler

/-- `ContextHandler.status`: on the terminal status, resolve the issued
prints destination (aborting on failure before anything is touched),
move each matching workspace PDF while fewer than `target_count` moves
have happened, report expected drawing numbers with no moved document,
and finally set every selected project's status unconditionally. -/
def status (selected : List String) (projects : ProjectDict) (st : String)
    (pdfs : List String) (dst : Except DestError String) : StatusResult :=
  if st = completedStatus then
    match dst with
    | Except.error e => ⟨[], [], projects, some e⟩
    | Except.ok _ =>
      let dwgs_nums := selected.filter (fun s => is_dwg_num s)
      let target_count := dwgs_nums.length
      let moved := movePdfs selected target_count pdfs []
      let missing := dwgs_nums.filter (fun i => !(moved.contains i))
      ⟨moved, missing, set_statuses selected st projects, none⟩
  else
    ⟨[], [], set_statuses selected st projects, none⟩

end ContextHandler

/-! ### Project duplication (`ContextHandler.copy_paste`, `context.py`) -/

/-- Little-endian base-10 digits with explicit fuel, so that concrete
values compute; with fuel `n` it agrees with `Nat.digits 10 n`. -/
def toDigitsRev : Nat → Nat → List Nat
  | 0, _ => []
  | fuel + 1, n => if n = 0 then [] else n % 10 :: toDigitsRev fuel (n / 10)

/-- Python `'%d' % n`: decimal digits, most significant first. -/
def natRepr (n : Nat) : String :=
  if n = 0 then "0"
  else String.mk ((toDigitsRev n n).reverse.map (fun d => Char.ofNat (48 + d)))

/-- The candidate duplicate key `dwg_num + ' (%d)' % copy_num`. -/
def copyKey (dwg : String) (n : Nat) : String :=
  dwg ++ " (" ++ natRepr n ++ ")"

/-- `ContextHandler._project_exists`: loop over the mapping's keys,
return `True` at a match, fall off the end (`None`) otherwise. -/
def project_exists (dwg : String) : ProjectDict → Option Bool
  | [] => none
  | kv :: rest =>
    if kv.1 = dwg then some true else project_exists dwg rest

/-- Length of the longest key in a mapping; bounds every probe key the
`while True` loop of `_get_copy_num` can hit. -/
def maxKeyLen (projects : ProjectDict) : Nat :=
  projects.foldr (fun kv m => max kv.1.length m) 0

theorem pyTruthy_eq_some_true {o : Option Bool} (h : pyTruthy o = true) :
    o = some true := by
  cases o with
  | none => simp [pyTruthy] at h
  | some b => cases b
              · simp [pyTruthy] at h
              · rfl

theorem length_le_maxKeyLen {dwg : String} :
    ∀ {d : ProjectDict}, project_exists dwg d = some true →
      dwg.length ≤ maxKeyLen d := by
  intro d
  induction d with
  | nil => intro h; simp [project_exists] at h
  | cons kv rest ih =>
    intro h
    by_cases hk : kv.1 = dwg
    · subst hk
      exact le_max_of_le_left le_rfl
    · have := ih (by simpa [project_exists, hk] using h)
      exact le_max_of_le_right this

theorem toDigitsRev_eq_digits : ∀ (fuel n : Nat), n ≤ fuel →
    toDigitsRev fuel n = Nat.digits 10 n := by
  intro fuel
  induction fuel with
  | zero => intro n h; interval_cases n; simp [toDigitsRev]
  | succ fuel ih =>
    intro n h
    by_cases hn : n = 0
    · subst hn; simp [toDigitsRev]
    · have h1 : 0 < n := Nat.pos_of_ne_zero hn
      have hdiv : n / 10 ≤ fuel := by
        have : n / 10 < n := Nat.div_lt_self h1 (by norm_num)
        omega
      rw [toDigitsRev, if_neg hn, ih (n / 10) hdiv,
        Nat.digits_def' (by norm_num : 1 < 10) h1]

theorem lt_pow_natRepr_length (n : Nat) : n < 10 ^ (natRepr n).length := by
  by_cases hn : n = 0
  · subst hn; norm_num [natRepr]
  · have hlen : (natRepr n).length = (Nat.digits 10 n).length := by
      rw [natRepr, if_neg hn]
      show ((toDigitsRev n n).reverse.map (fun d => Char.ofNat (48 + d))).length = _
      rw [List.length_map, List.length_reverse, toDigitsRev_eq_digits n n le_rfl]
    rw [hlen]
    exact Nat.lt_base_pow_length_digits (by norm_num)

theorem copyKey_length (dwg : String) (n : Nat) :
    (copyKey dwg n).length = dwg.length + 2 + (natRepr n).length + 1 := by
  simp [copyKey, String.length_append]
  rfl

/-- `ContextHandler._get_copy_num`'s `while True` loop, started at any
probe number.  The loop terminates because each occupied probe key has
bounded length, so its probe number is bounded. -/
def get_copy_num (dwg : String) (projects : ProjectDict) (copy_num : Nat) :
    Nat :=
  if h : pyTruthy (project_exists (copyKey dwg copy_num) projects) = true then
    get_copy_num dwg projects (copy_num + 1)
  else
    copy_num
termination_by 10 ^ (maxKeyLen projects + 1) - copy_num
decreasing_by
  have h1 : project_exists (copyKey dwg copy_num) projects = some true :=
    pyTruthy_eq_some_true h
  have h2 : (copyKey dwg copy_num).length ≤ maxKeyLen projects :=
    length_le_maxKeyLen h1
  have h3 : (natRepr copy_num).length ≤ maxKeyLen projects := by
    have := copyKey_length dwg copy_num
    omega
  have h4 : copy_num < 10 ^ (natRepr copy_num).length :=
    lt_pow_natRepr_length copy_num
  have h5 : (10 : Nat) ^ (natRepr copy_num).length ≤
      10 ^ (maxKeyLen projects + 1) :=
    Nat.pow_le_pow_right (by norm_num) (by omega)
  have h6 : copy_num < 10 ^ (maxKeyLen projects + 1) := lt_of_lt_of_le h4 h5
  omega

/-- `projects[new_name].alias_num = alias` for a present key. -/
def set_alias (p a : String) (d : ProjectDict) : ProjectDict :=
  d.map (fun kv => if kv.1 = p then (kv.1, { kv.2 with alias_num := a }) else kv)

/-- One iteration of `ContextHandler.copy_paste`: build the duplicate
key via `_get_copy_num` starting at 2, add the duplicate project with
the source's work instructions, owner, due date and status, then copy
the source's alias number onto it.  A missing source key or missing
`'Work Instructions'` note is a Python `KeyError`, modelled as `none`. -/
def copy_paste_step (job : Job) (p : String) : Option Job :=
  match dlookup p job.projects with
  | none => none
  | some src =>
    match dlookup "Work Instructions" src.notes.data with
    | none => none
    | some wi =>
      let new_name := copyKey p (get_copy_num p job.projects 2)
      let j2 := job.add_project new_name wi src.owner src.due_date src.status
      some { j2 with projects := set_alias new_name src.alias_num j2.projects }

/-- `ContextHandler.copy_paste` over the selected keys. -/
def copy_paste (selected : List String) (job : Job) : Option Job :=
  selected.foldl (fun oj p => oj.bind (fun j => copy_paste_step j p)) (some job)

/-! ### Jobs at a glance (`JobIO.jobs_at_a_glance`, `job_io.py`)

Due dates are `MM/DD/YYYY` strings; the code parses both the due date
and today's date with `datetime.strptime` and buckets on the day
difference `(due_date - now).days`.  Calendar arithmetic is embedded
with a standard civil-calendar day number (`rataDie`). -/

/-- Gregorian leap-year rule, as `datetime` implements it. -/
def isLeap (y : Nat) : Bool :=
  (y % 4 == 0 && y % 100 != 0) || y % 400 == 0

/-- Days in a month, used by `datetime`'s day-of-month validation. -/
def daysInMonth (y m : Nat) : Nat :=
  if m = 2 then (if isLeap y then 29 else 28)
  else if m = 4 ∨ m = 6 ∨ m = 9 ∨ m = 11 then 30
  else 31

/-- Parse a digit string to a number (`none` when empty or non-digit). -/
def digitsToNat (cs : List Char) : Option Nat :=
  if cs = [] then none
  else if cs.all (fun c => c.isDigit) then
    some (cs.foldl (fun acc c => acc * 10 + (c.toNat - 48)) 0)
  else none

/-- `datetime.strptime(s, '%m/%d/%Y')`: split on `'/'`, read the three
numeric fields, and validate them as a real calendar date; a failure is
`datetime`'s `ValueError`, modelled as `none`. -/
def strptimeMDY (s : String) : Option (Nat × Nat × Nat) :=
  match (splitChar '/' s.toList).map digitsToNat with
  | [some m, some d, some y] =>
    if 1 ≤ m ∧ m ≤ 12 ∧ 1 ≤ d ∧ d ≤ daysInMonth y m ∧ 1 ≤ y ∧ y ≤ 9999
    then some (m, d, y) else none
  | _ => none

/-- Day number of a civil date (days since 0000-03-01, Gregorian),
so that subtracting two day numbers gives `(d1 - d2).days`. -/
def rataDie (m d y : Nat) : Nat :=
  let y2 := if m ≤ 2 then y - 1 else y
  let era := y2 / 400
  let yoe := y2 % 400
  let mp := (m + 9) % 12
  let doy := (153 * mp + 2) / 5 + (d - 1)
  let doe := yoe * 365 + yoe / 4 - yoe / 100 + doy
  era * 146097 + doe

/-- `(due_date - now).days` for two `MM/DD/YYYY` strings. -/
def dateDelta (due today : String) : Option Int :=
  match strptimeMDY due, strptimeMDY today with
  | some (dm, dd, dy), some (tm, td, ty) =>
    some ((rataDie dm dd dy : Int) - (rataDie tm td ty : Int))
  | _, _ => none

/-- The per-job counting loop of `jobs_at_a_glance`: completed projects
are skipped, every other project's due date is parsed and bucketed by
its day difference from today (`< 0` expired, `= 0` today, `< 3`
approaching); an unparsable due date raises (`none`). -/
def glanceCounts (today : String) :
    List Project → Nat × Nat × Nat → Option (Nat × Nat × Nat)
  | [], acc => some acc
  | p :: rest, (e, t, a) =>
    if p.status = completedStatus then glanceCounts today rest (e, t, a)
    else
      match dateDelta p.due_date today with
      | none => none
      | some delta =>
        if delta < 0 then glanceCounts today rest (e + 1, t, a)
        else if delta = 0 then glanceCounts today rest (e, t + 1, a)
        else if delta < 3 then glanceCounts today rest (e, t, a + 1)
        else glanceCounts today rest (e, t, a)

/-- `JobIO.jobs_at_a_glance`: the expired/today/approaching counters per
job number, starting at zero for each job. -/
def jobs_at_a_glance (job_dict : List (String × List Project))
    (today : String) : Option (List (String × (Nat × Nat × Nat))) :=
  match job_dict with
  | [] => some []
  | (j, ps) :: rest =>
    match glanceCounts today ps (0, 0, 0) with
    | none => none
    | some g =>
      match jobs_at_a_glance rest today with
      | none => none
      | some l => some ((j, g) :: l)

/-- Spec-side bucket predicate: a non-terminal project overdue today. -/
def isExpired (today : String) (p : Project) : Bool :=
  p.status != completedStatus &&
    (match dateDelta p.due_date today with
     | some d => decide (d < 0)
     | none => false)

/-- Spec-side bucket predicate: a non-terminal project due today. -/
def isDueToday (today : String) (p : Project) : Bool :=
  p.status != completedStatus &&
    (match dateDelta p.due_date today with
     | some d => decide (d = 0)
     | none => false)

/-- Spec-side bucket predicate: a non-terminal project due in 1–2 days. -/
def isApproaching (today : String) (p : Project) : Bool :=
  p.status != completedStatus &&
    (match dateDelta p.due_date today with
     | some d => decide (1 ≤ d ∧ d < 3)
     | none => false)

/-! ### Dictionary lemmas -/

theorem dlookup_append {α : Type} (k : String) (d1 d2 : List (String × α)) :
    dlookup k (d1 ++ d2) = (dlookup k d1).or (dlookup k d2) := by
  induction d1 with
  | nil => simp [dlookup]
  | cons kv rest ih =>
    by_cases h : kv.1 = k
    · simp [dlookup, h]
    · simp [dlookup, h, ih]

theorem dmem_false_iff {α : Type} (k : String) (d : List (String × α)) :
    dmem k d = false ↔ dlookup k d = none := by
  unfold dmem
  cases dlookup k d <;> simp

theorem dlookup_dinsert_self {α : Type} (k : String) (v : α)
    (d : List (String × α)) : dlookup k (dinsert k v d) = some v := by
  unfold dinsert
  split
  · rename_i hmem
    induction d with
    | nil => simp [dmem, dlookup] at hmem
    | cons kv rest ih =>
      by_cases h : kv.1 = k
      · simp only [List.map_cons, if_pos h]
        simp [dlookup]
      · have hrest : dmem k rest = true := by
          simpa [dmem, dlookup, h] using hmem
        simp only [List.map_cons, if_neg h]
        simp only [dlookup, if_neg h]
        exact ih hrest
  · rename_i hmem
    have hnone : dlookup k d = none :=
      (dmem_false_iff k d).mp (by simpa using hmem)
    simp [dlookup_append, hnone, dlookup]

theorem map_keep_of_no_key {α : Type} {k : String} {v : α}
    {d : List (String × α)} (h : ∀ kv ∈ d, kv.1 ≠ k) :
    d.map (fun kv => if kv.1 = k then (k, v) else kv) = d := by
  have : d.map (fun kv => if kv.1 = k then (k, v) else kv) = d.map id :=
    List.map_congr_left (fun x hx => by simp [h x hx])
  simpa using this

theorem dmem_of_key_mem {α : Type} {k : String} {d : List (String × α)}
    (h : k ∈ d.map Prod.fst) : dmem k d = true := by
  induction d with
  | nil => simp at h
  | cons kv rest ih =>
    by_cases hk : kv.1 = k
    · simp [dmem, dlookup, hk]
    · simp only [List.map_cons] at h
      rcases List.mem_cons.mp h with hh | hh
      · exact absurd hh.symm hk
      · simpa [dmem, dlookup, hk] using ih hh

theorem dinsert_map_keep_tail {α : Type} {k : String} {v : α}
    {rest : List (String × α)} (hrest : ¬dmem k rest = true) :
    rest.map (fun kv => if kv.1 = k then (k, v) else kv) = rest := by
  apply map_keep_of_no_key
  intro x hx hxk
  exact hrest (dmem_of_key_mem (hxk ▸ List.mem_map_of_mem Prod.fst hx))

theorem dlookup_dinsert_ne {α : Type} {k k2 : String} (v : α)
    (d : List (String × α)) (h : k2 ≠ k) :
    dlookup k2 (dinsert k v d) = dlookup k2 d := by
  unfold dinsert
  split
  · rename_i hmem
    induction d with
    | nil => simp
    | cons kv rest ih =>
      by_cases hk : kv.1 = k
      · have hk2 : kv.1 ≠ k2 := by rw [hk]; exact Ne.symm h
        simp only [List.map_cons, if_pos hk]
        simp only [dlookup, if_neg (Ne.symm h), if_neg hk2]
        by_cases hrest : dmem k rest = true
        · exact ih hrest
        · rw [dinsert_map_keep_tail hrest]
      · simp only [List.map_cons, if_neg hk]
        simp only [dlookup]
        by_cases hk2 : kv.1 = k2
        · simp [hk2]
        · have hrest : dmem k rest = true := by
            simpa [dmem, dlookup, hk] using hmem
          simp only [if_neg hk2]
          exact ih hrest
  · rw [dlookup_append]
    simp [dlookup, Ne.symm h]

theorem derase_cons_drop {α : Type} {k : String} {kv : String × α}
    (rest : List (String × α)) (h : kv.1 = k) :
    derase k (kv :: rest) = derase k rest := by
  simp [derase, List.filter_cons, h]

theorem derase_cons_keep {α : Type} {k : String} {kv : String × α}
    (rest : List (String × α)) (h : kv.1 ≠ k) :
    derase k (kv :: rest) = kv :: derase k rest := by
  simp [derase, List.filter_cons, h]

theorem dlookup_derase_self {α : Type} (k : String)
    (d : List (String × α)) : dlookup k (derase k d) = none := by
  induction d with
  | nil => rfl
  | cons kv rest ih =>
    by_cases h : kv.1 = k
    · rw [derase_cons_drop rest h]; exact ih
    · rw [derase_cons_keep rest h]
      simp only [dlookup, if_neg h]
      exact ih

theorem dlookup_derase_ne {α : Type} {k k2 : String}
    (d : List (String × α)) (h : k2 ≠ k) :
    dlookup k2 (derase k d) = dlookup k2 d := by
  induction d with
  | nil => rfl
  | cons kv rest ih =>
    by_cases hk : kv.1 = k
    · have hk2 : kv.1 ≠ k2 := by rw [hk]; exact Ne.symm h
      rw [derase_cons_drop rest hk]
      simp only [dlookup, if_neg hk2]
      exact ih
    · rw [derase_cons_keep rest hk]
      by_cases hk2 : kv.1 = k2
      · simp [dlookup, hk2]
      · simp only [dlookup, if_neg hk2]
        exact ih

theorem mem_keys_of_dlookup {α : Type} {k : String} {v : α}
    {d : List (String × α)} (h : dlookup k d = some v) :
    k ∈ d.map Prod.fst := by
  induction d with
  | nil => simp [dlookup] at h
  | cons kv rest ih =>
    by_cases hk : kv.1 = k
    · simp [hk]
    · simp [dlookup, hk] at h
      simp [ih h]

theorem dinsert_map_eq {α : Type} {k : String} {v : α} :
    ∀ {d : List (String × α)}, (d.map Prod.fst).Nodup →
      dlookup k d = some v →
      d.map (fun kv => if kv.1 = k then (k, v) else kv) = d := by
  intro d
  induction d with
  | nil => intro _ h; simp [dlookup] at h
  | cons kv rest ih =>
    intro hnd h
    simp only [List.map_cons, List.nodup_cons] at hnd
    by_cases hk : kv.1 = k
    · have hv : kv.2 = v := by simpa [dlookup, hk] using h
      have hrest : rest.map (fun kv => if kv.1 = k then (k, v) else kv) = rest := by
        apply map_keep_of_no_key
        intro x hx hxk
        exact hnd.1 (by
          rw [hk, ← hxk]
          exact List.mem_map_of_mem Prod.fst hx)
      have hhead : (kv.1, kv.2) = kv := rfl
      simp only [List.map_cons, if_pos hk, hrest]
      rw [← hk, ← hv, hhead]
    · have hlook : dlookup k rest = some v := by simpa [dlookup, hk] using h
      simp only [List.map_cons, if_neg hk, ih hnd.2 hlook]

theorem dinsert_self_of_dlookup {α : Type} {k : String} {v : α}
    {d : List (String × α)} (hnd : (d.map Prod.fst).Nodup)
    (h : dlookup k d = some v) : dinsert k v d = d := by
  have hmem : dmem k d = true := by unfold dmem; simp [h]
  unfold dinsert
  rw [if_pos hmem, dinsert_map_eq hnd h]

theorem copy_jobs_error {records : String → Option Job} {l : List String}
    {j : String} (hj : j ∈ l) (hrec : records j = none) :
    JobIo.copy_jobs records l = Except.error PyError.ioError := by
  induction l with
  | nil => simp at hj
  | cons k rest ih =>
    rcases List.mem_cons.mp hj with rfl | hjr
    · simp [JobIo.copy_jobs, hrec]
    · cases hk : records k with
      | none => simp [JobIo.copy_jobs, hk]
      | some job =>
        simp [JobIo.copy_jobs, hk, ih hjr]

/-- C1, counterexample: in a concrete race where job `222222` is
enumerated but its backing record is deleted before the copy step, the
aggregator raises `IOError` instead of returning the merged projects of
the surviving job `111111` — refuting the claim that it never raises for
a vanished job. -/
theorem existing_projects_raises_on_vanished_record :
    JobIo.existing_projects raceListing raceRecords =
      Except.error PyError.ioError := by
  rfl

/-- C1, amended: if any enumerated active job's backing record is gone
by the time the copy step reads it, the aggregator propagates `IOError`
(the `shutil.copy` failure) to its caller; no merged mapping is
returned. -/
theorem existing_projects_error_of_vanished
    (listing : List String) (records : String → Option Job) (j : String)
    (hj : j ∈ JobIo.active_job_nums listing) (hrec : records j = none) :
    JobIo.existing_projects listing records =
      Except.error PyError.ioError := by
  unfold JobIo.existing_projects JobIo.active_job_temp_files
  rw [copy_jobs_error hj hrec]

/-- Witness for C1's amended theorem at the concrete race state. -/
theorem existing_projects_error_of_vanished_witness :
    JobIo.existing_projects raceListing raceRecords =
      Except.error PyError.ioError :=
  existing_projects_error_of_vanished raceListing raceRecords "222222"
    (by decide) (by rfl)

/-- C2 (confirmed): saving a `Job` under a job number and loading that
job number back yields a `Job` equal in `job_num`, `workspace`, and the
entire `projects` mapping — hence in every `Project`'s `alias_num`,
`owner`, `due_date`, `status`, and full ordered note history. -/
theorem save_get_roundtrip (job_num : String) (j : Job) (fs : FS) :
    ∃ j2, JobIo.get job_num (JobIo.save job_num j fs) = Except.ok j2 ∧
      j2.job_num = j.job_num ∧ j2.workspace = j.workspace ∧
      j2.projects = j.projects := by
  refine ⟨j, ?_, rfl, rfl, rfl⟩
  simp [JobIo.get, JobIo.save]

/-- C5 (confirmed): on a store with no backing file for a 6-character
job number, `job_exists` is falsy (`None`), creation succeeds and lays
down the lock marker plus an empty-projects `Job`, after which
`job_exists` is truthy and `get` returns the empty `Job`; a second
create of the same job number fails with `ExistingJobError`. -/
theorem create_fresh_spec (job_num ws ws2 : String) (fs : FS)
    (hlen : job_num.length = 6)
    (hfresh : ∀ f ∈ fs.files, isSubstr job_num f = false) :
    JobIo.job_exists job_num fs.files = none ∧
    ∃ fs2, createJob job_num ws fs = Except.ok fs2 ∧
      (job_num ++ ".lock") ∈ fs2.files ∧
      pyTruthy (JobIo.job_exists job_num fs2.files) = true ∧
      JobIo.get job_num fs2 = Except.ok (Job.init job_num ws) ∧
      (Job.init job_num ws).projects = [] ∧
      createJob job_num ws2 fs2 = Except.error PyError.existingJobError := by
  have hnone : JobIo.job_exists job_num fs.files = none :=
    job_exists_eq_none hfresh
  refine ⟨hnone, JobIo.init_files job_num ws fs, ?_, ?_, ?_, ?_, rfl, ?_⟩
  · unfold createJob
    simp [hlen, hnone, pyTruthy]
  · unfold JobIo.init_files JobIo.save
    exact mem_listAdd_of_mem (mem_listAdd_self _ _)
  · have hmem : (job_num ++ ".lock") ∈ (JobIo.init_files job_num ws fs).files := by
      unfold JobIo.init_files JobIo.save
      exact mem_listAdd_of_mem (mem_listAdd_self _ _)
    have := job_exists_eq_some_true
      ⟨job_num ++ ".lock", hmem, isSubstr_append_right job_num ".lock"⟩
    simp [this, pyTruthy]
  · unfold JobIo.init_files JobIo.save JobIo.get
    simp
  · have hmem : (job_num ++ ".lock") ∈ (JobIo.init_files job_num ws fs).files := by
      unfold JobIo.init_files JobIo.save
      exact mem_listAdd_of_mem (mem_listAdd_self _ _)
    have hsome := job_exists_eq_some_true
      ⟨job_num ++ ".lock", hmem, isSubstr_append_right job_num ".lock"⟩
    unfold createJob
    simp [hlen, hsome, pyTruthy]

/-- Witness for C5 at a concrete empty store. -/
theorem create_fresh_spec_witness :
    JobIo.job_exists "123456" (FS.mk [] (fun _ => none)).files = none ∧
    ∃ fs2, createJob "123456" "W:/123456" (FS.mk [] (fun _ => none)) =
        Except.ok fs2 ∧
      ("123456" ++ ".lock") ∈ fs2.files ∧
      pyTruthy (JobIo.job_exists "123456" fs2.files) = true ∧
      JobIo.get "123456" fs2 = Except.ok (Job.init "123456" "W:/123456") ∧
      (Job.init "123456" "W:/123456").projects = [] ∧
      createJob "123456" "X" fs2 = Except.error PyError.existingJobError :=
  create_fresh_spec "123456" "W:/123456" "X" (FS.mk [] (fun _ => none))
    (by decide) (by simp)

/-- C10 (confirmed): `job_exists` falls off the end of its loop and
returns `None` — never the boolean `False` — when no filename contains
the job number as a substring, and returns `True` exactly when some
filename does; callers may rely only on truthiness. -/
theorem job_exists_truthiness (n : String) (files : List String) :
    ((∀ f ∈ files, isSubstr n f = false) → JobIo.job_exists n files = none) ∧
    ((∃ f ∈ files, isSubstr n f = true) →
      JobIo.job_exists n files = some true) ∧
    JobIo.job_exists n files ≠ some false :=
  ⟨fun h => job_exists_eq_none h,
   fun h => job_exists_eq_some_true h,
   job_exists_ne_some_false n files⟩

/-! ### Move-loop and status-loop lemmas -/

theorem movePdfs_all_matched (selected : List String) (target : Nat) :
    ∀ (pdfs : List String) (moved : List String),
      moved.length +
          (pdfs.filter (fun p => decide (pdfKey p ∈ selected))).length ≤
        target →
      movePdfs selected target pdfs moved =
        moved ++
          (pdfs.filter (fun p => decide (pdfKey p ∈ selected))).map pdfKey := by
  intro pdfs
  induction pdfs with
  | nil => intro moved _; simp [movePdfs]
  | cons pdf rest ih =>
    intro moved hle
    by_cases hm : pdfKey pdf ∈ selected
    · have hfc :
          (pdf :: rest).filter (fun p => decide (pdfKey p ∈ selected)) =
            pdf :: rest.filter (fun p => decide (pdfKey p ∈ selected)) := by
        simp [List.filter_cons, hm]
      rw [hfc] at hle ⊢
      have hlt : moved.length < target := by
        simp only [List.length_cons] at hle
        omega
      have hrec := ih (moved ++ [pdfKey pdf]) (by
        simp only [List.length_append, List.length_cons] at hle ⊢
        simpa using by omega)
      simp only [movePdfs, if_pos hlt, if_pos hm, hrec]
      simp
    · have hfc :
          (pdf :: rest).filter (fun p => decide (pdfKey p ∈ selected)) =
            rest.filter (fun p => decide (pdfKey p ∈ selected)) := by
        simp [List.filter_cons, hm]
      rw [hfc] at hle ⊢
      have hrec := ih moved hle
      by_cases hlt : moved.length < target
      · simp only [movePdfs, if_pos hlt, if_neg hm, hrec]
      · simp only [movePdfs, if_neg hlt, hrec]

theorem dlookup_set_status_one (k p st : String) (d : ProjectDict) :
    dlookup k (set_status_one p st d) =
      (dlookup k d).map
        (fun pr => if k = p then { pr with status := st } else pr) := by
  induction d with
  | nil => rfl
  | cons kv rest ih =>
    obtain ⟨k1, v1⟩ := kv
    simp only [set_status_one, List.map_cons] at ih ⊢
    by_cases hp : k1 = p
    · subst hp
      rw [if_pos rfl]
      by_cases hk : k1 = k
      · subst hk
        simp [dlookup]
      · have hk2 : ¬k = k1 := fun hcon => hk hcon.symm
        simp [dlookup, hk, hk2, ih]
    · rw [if_neg hp]
      by_cases hk : k1 = k
      · subst hk
        simp [dlookup, hp]
      · simp [dlookup, hp, hk, ih]

theorem dlookup_set_statuses (k st : String) :
    ∀ (selected : List String) (d : ProjectDict) (pr : Project),
      dlookup k d = some pr →
      ∃ pr2, dlookup k (set_statuses selected st d) = some pr2 ∧
        pr2.status = (if k ∈ selected then st else pr.status) := by
  intro selected
  induction selected with
  | nil => intro d pr h; exact ⟨pr, h, by simp⟩
  | cons p rest ih =>
    intro d pr h
    have hstep :
        dlookup k (set_status_one p st d) =
          some (if k = p then { pr with status := st } else pr) := by
      rw [dlookup_set_status_one, h]
      rfl
    obtain ⟨pr2, hpr2, hst⟩ :=
      ih (set_status_one p st d)
        (if k = p then { pr with status := st } else pr) hstep
    refine ⟨pr2, by simpa [set_statuses] using hpr2, ?_⟩
    by_cases hkr : k ∈ rest
    · simp [hkr, hst]
    · by_cases hkp : k = p
      · simp [hkr, hkp, hst]
      · simp [hkr, hkp, hst]

/-- C4 (confirmed): when the issued-prints destination lookup fails
during a transition to the terminal status, `ContextHandler.status`
returns immediately: no file is moved, nothing is reported missing, and
the projects mapping is untouched. -/
theorem status_aborts_on_dest_error (selected : List String)
    (projects : ProjectDict) (pdfs : List String) (e : DestError) :
    (ContextHandler.status selected projects completedStatus pdfs
        (Except.error e)).moved_dwg_nums = [] ∧
    (ContextHandler.status selected projects completedStatus pdfs
        (Except.error e)).missing_pdfs = [] ∧
    (ContextHandler.status selected projects completedStatus pdfs
        (Except.error e)).projects = projects ∧
    (ContextHandler.status selected projects completedStatus pdfs
        (Except.error e)).destError = some e := by
  simp [ContextHandler.status]

/-- C3 (confirmed): completing three distinct drawing-number keys when
only two have a matching workspace document moves exactly those two
documents, reports exactly the one unmatched identifier, and still sets
all three selected projects' status to the terminal one. -/
theorem status_completed_partial_docs (a b c : String)
    (projects : ProjectDict) (pdfs : List String) (pa pb dstFolder : String)
    (hab : a ≠ b) (hac : a ≠ c) (hbc : b ≠ c)
    (hda : is_dwg_num a = true) (hdb : is_dwg_num b = true)
    (hdc : is_dwg_num c = true)
    (hfilter : pdfs.filter (fun p => decide (pdfKey p ∈ [a, b, c])) = [pa, pb])
    (hka : pdfKey pa = a) (hkb : pdfKey pb = b)
    (hpa : (dlookup a projects).isSome = true)
    (hpb : (dlookup b projects).isSome = true)
    (hpc : (dlookup c projects).isSome = true) :
    (ContextHandler.status [a, b, c] projects completedStatus pdfs
        (Except.ok dstFolder)).moved_dwg_nums.length = 2 ∧
    (ContextHandler.status [a, b, c] projects completedStatus pdfs
        (Except.ok dstFolder)).missing_pdfs = [c] ∧
    (∀ k ∈ [a, b, c], ∃ pr2,
      dlookup k (ContextHandler.status [a, b, c] projects completedStatus
          pdfs (Except.ok dstFolder)).projects = some pr2 ∧
      pr2.status = completedStatus) ∧
    (ContextHandler.status [a, b, c] projects completedStatus pdfs
        (Except.ok dstFolder)).destError = none := by
  have hdwgs : [a, b, c].filter (fun s => is_dwg_num s) = [a, b, c] := by
    simp [List.filter_cons, hda, hdb, hdc]
  have hmoved : movePdfs [a, b, c] ([a, b, c].filter
      (fun s => is_dwg_num s)).length pdfs [] = [a, b] := by
    rw [hdwgs]
    have := movePdfs_all_matched [a, b, c] 3 pdfs []
      (by rw [hfilter]; simp)
    rw [hfilter] at this
    simpa [hka, hkb] using this
  have hres : ContextHandler.status [a, b, c] projects completedStatus pdfs
      (Except.ok dstFolder) =
      ⟨[a, b], ([a, b, c].filter (fun s => is_dwg_num s)).filter
          (fun i => !([a, b].contains i)),
        set_statuses [a, b, c] completedStatus projects, none⟩ := by
    simp only [ContextHandler.status, if_pos rfl]
    rw [hmoved]
    simp
  rw [hres]
  refine ⟨rfl, ?_, ?_, rfl⟩
  · rw [hdwgs]
    simp [List.filter_cons, hab, hac, hbc, Ne.symm hac, Ne.symm hbc]
  · intro k hk
    rcases Option.isSome_iff_exists.mp hpa with ⟨va, hva⟩
    rcases Option.isSome_iff_exists.mp hpb with ⟨vb, hvb⟩
    rcases Option.isSome_iff_exists.mp hpc with ⟨vc, hvc⟩
    simp only [List.mem_cons, List.not_mem_nil, or_false] at hk
    rcases hk with rfl | rfl | rfl
    · obtain ⟨pr2, h1, h2⟩ :=
        dlookup_set_statuses k completedStatus [k, b, c] projects va hva
      exact ⟨pr2, h1, by simpa using h2⟩
    · obtain ⟨pr2, h1, h2⟩ :=
        dlookup_set_statuses k completedStatus [a, k, c] projects vb hvb
      exact ⟨pr2, h1, by simpa using h2⟩
    · obtain ⟨pr2, h1, h2⟩ :=
        dlookup_set_statuses k completedStatus [a, b, k] projects vc hvc
      exact ⟨pr2, h1, by simpa using h2⟩

/-- Witness for C3: three concrete drawing numbers, a workspace holding
documents for the first two plus an unrelated PDF. -/
theorem status_completed_partial_docs_witness :
    (ContextHandler.status
        ["111111-01-02-003", "111111-01-02-004", "111111-01-02-005"]
        [("111111-01-02-003", sampleProject),
         ("111111-01-02-004", sampleProject),
         ("111111-01-02-005", sampleProject)]
        completedStatus
        ["111111-01-02-003_A.pdf", "readme.pdf", "111111-01-02-004_B.pdf"]
        (Except.ok "P:/issued")).moved_dwg_nums.length = 2 ∧
    (ContextHandler.status
        ["111111-01-02-003", "111111-01-02-004", "111111-01-02-005"]
        [("111111-01-02-003", sampleProject),
         ("111111-01-02-004", sampleProject),
         ("111111-01-02-005", sampleProject)]
        completedStatus
        ["111111-01-02-003_A.pdf", "readme.pdf", "111111-01-02-004_B.pdf"]
        (Except.ok "P:/issued")).missing_pdfs = ["111111-01-02-005"] ∧
    (∀ k ∈ ["111111-01-02-003", "111111-01-02-004", "111111-01-02-005"],
      ∃ pr2, dlookup k (ContextHandler.status
        ["111111-01-02-003", "111111-01-02-004", "111111-01-02-005"]
        [("111111-01-02-003", sampleProject),
         ("111111-01-02-004", sampleProject),
         ("111111-01-02-005", sampleProject)]
        completedStatus
        ["111111-01-02-003_A.pdf", "readme.pdf", "111111-01-02-004_B.pdf"]
        (Except.ok "P:/issued")).projects = some pr2 ∧
      pr2.status = completedStatus) ∧
    (ContextHandler.status
        ["111111-01-02-003", "111111-01-02-004", "111111-01-02-005"]
        [("111111-01-02-003", sampleProject),
         ("111111-01-02-004", sampleProject),
         ("111111-01-02-005", sampleProject)]
        completedStatus
        ["111111-01-02-003_A.pdf", "readme.pdf", "111111-01-02-004_B.pdf"]
        (Except.ok "P:/issued")).destError = none :=
  status_completed_partial_docs
    "111111-01-02-003" "111111-01-02-004" "111111-01-02-005"
    [("111111-01-02-003", sampleProject),
     ("111111-01-02-004", sampleProject),
     ("111111-01-02-005", sampleProject)]
    ["111111-01-02-003_A.pdf", "readme.pdf", "111111-01-02-004_B.pdf"]
    "111111-01-02-003_A.pdf" "111111-01-02-004_B.pdf" "P:/issued"
    (by decide) (by decide) (by decide) (by decide) (by decide) (by decide)
    (by decide) (by decide) (by decide) (by decide) (by decide) (by decide)

theorem dlookup_set_alias (k p a : String) (d : ProjectDict) :
    dlookup k (set_alias p a d) =
      (dlookup k d).map
        (fun pr => if k = p then { pr with alias_num := a } else pr) := by
  induction d with
  | nil => rfl
  | cons kv rest ih =>
    obtain ⟨k1, v1⟩ := kv
    simp only [set_alias, List.map_cons] at ih ⊢
    by_cases hp : k1 = p
    · subst hp
      rw [if_pos rfl]
      by_cases hk : k1 = k
      · subst hk
        simp [dlookup]
      · have hk2 : ¬k = k1 := fun hcon => hk hcon.symm
        simp [dlookup, hk, hk2, ih]
    · rw [if_neg hp]
      by_cases hk : k1 = k
      · subst hk
        simp [dlookup, hp]
      · simp [dlookup, hp, hk, ih]

theorem dmem_set_alias (k p a : String) (d : ProjectDict) :
    dmem k (set_alias p a d) = dmem k d := by
  unfold dmem
  rw [dlookup_set_alias]
  cases dlookup k d <;> simp

theorem get_copy_num_least :
    ∀ (dwg : String) (projects : ProjectDict) (start : Nat),
      start ≤ get_copy_num dwg projects start ∧
      pyTruthy (project_exists
        (copyKey dwg (get_copy_num dwg projects start)) projects) = false ∧
      (∀ m, start ≤ m → m < get_copy_num dwg projects start →
        pyTruthy (project_exists (copyKey dwg m) projects) = true) := by
  intro dwg projects start
  induction start using get_copy_num.induct dwg projects with
  | case1 n hcond ih =>
    obtain ⟨ih1, ih2, ih3⟩ := ih
    have heq : get_copy_num dwg projects n = get_copy_num dwg projects (n + 1) := by
      rw [get_copy_num, dif_pos hcond]
    refine ⟨by omega, heq ▸ ih2, ?_⟩
    intro m hm1 hm2
    by_cases hmn : m = n
    · subst hmn; exact hcond
    · exact ih3 m (by omega) (heq ▸ hm2)
  | case2 n hcond =>
    have heq : get_copy_num dwg projects n = n := by
      rw [get_copy_num, dif_neg hcond]
    refine ⟨?_, ?_, ?_⟩
    · simp [heq]
    · rw [heq]
      exact Bool.eq_false_iff.mpr hcond
    · intro m hm1 hm2
      rw [heq] at hm2
      omega

/-- C8 (confirmed): duplicating a project under key `p` generates the
duplicate's key by appending `" (n)"` to `p`, probing n = 2, 3, … until
a key not present in the mapping is found (the chosen probe is the least
unused one, every smaller probe from 2 on being occupied), and
`copy_paste` stores the duplicate under that key. -/
theorem copy_paste_key_generation (job : Job) (p : String) (src : Project)
    (wi : String) (hsrc : dlookup p job.projects = some src)
    (hwi : dlookup "Work Instructions" src.notes.data = some wi) :
    2 ≤ get_copy_num p job.projects 2 ∧
    pyTruthy (project_exists
      (copyKey p (get_copy_num p job.projects 2)) job.projects) = false ∧
    (∀ m, 2 ≤ m → m < get_copy_num p job.projects 2 →
      pyTruthy (project_exists (copyKey p m) job.projects) = true) ∧
    ∃ job2, copy_paste [p] job = some job2 ∧
      dmem (copyKey p (get_copy_num p job.projects 2)) job2.projects = true := by
  obtain ⟨h1, h2, h3⟩ := get_copy_num_least p job.projects 2
  refine ⟨h1, h2, h3, ?_⟩
  have hstep : copy_paste [p] job = copy_paste_step job p := by
    simp [copy_paste]
  rw [hstep]
  unfold copy_paste_step
  simp only [hsrc, hwi]
  refine ⟨_, rfl, ?_⟩
  simp only [Job.add_project]
  rw [dmem_set_alias]
  unfold dmem
  rw [dlookup_dinsert_self]
  rfl

/-- Witness for C8: duplicating `"A"` among existing keys
`{"A", "A (2)"}` probes 2 (occupied) then 3 (free), producing key
`"A (3)"`. -/
theorem copy_paste_key_generation_witness :
    copyKey "A"
        (get_copy_num "A" [("A", sampleProject), ("A (2)", sampleProject)] 2) =
      "A (3)" ∧
    (2 ≤ get_copy_num "A" [("A", sampleProject), ("A (2)", sampleProject)] 2 ∧
    pyTruthy (project_exists
      (copyKey "A" (get_copy_num "A"
        [("A", sampleProject), ("A (2)", sampleProject)] 2))
      (Job.mk "111111" "W:/111111"
        [("A", sampleProject), ("A (2)", sampleProject)]).projects) = false ∧
    (∀ m, 2 ≤ m →
      m < get_copy_num "A" [("A", sampleProject), ("A (2)", sampleProject)] 2 →
      pyTruthy (project_exists (copyKey "A" m)
        (Job.mk "111111" "W:/111111"
          [("A", sampleProject), ("A (2)", sampleProject)]).projects) = true) ∧
    ∃ job2, copy_paste ["A"]
        (Job.mk "111111" "W:/111111"
          [("A", sampleProject), ("A (2)", sampleProject)]) = some job2 ∧
      dmem (copyKey "A" (get_copy_num "A"
          [("A", sampleProject), ("A (2)", sampleProject)] 2))
        job2.projects = true) :=
  ⟨by
    have hval : get_copy_num "A"
        [("A", sampleProject), ("A (2)", sampleProject)] 2 = 3 := by
      rw [get_copy_num, dif_pos (by decide), get_copy_num, dif_neg (by decide)]
    rw [hval]
    decide,
   copy_paste_key_generation
    (Job.mk "111111" "W:/111111" [("A", sampleProject), ("A (2)", sampleProject)])
    "A" sampleProject "mill the casing" (by decide) (by decide)⟩

theorem glanceCounts_eq_countP (today : String) :
    ∀ (ps : List Project) (e t a : Nat),
      (∀ p ∈ ps, p.status ≠ completedStatus →
        (dateDelta p.due_date today).isSome = true) →
      glanceCounts today ps (e, t, a) =
        some (e + ps.countP (fun p => isExpired today p),
              t + ps.countP (fun p => isDueToday today p),
              a + ps.countP (fun p => isApproaching today p)) := by
  intro ps
  induction ps with
  | nil => intro e t a _; simp [glanceCounts]
  | cons p rest ih =>
    intro e t a h
    have hrest := fun q hq => h q (List.mem_cons_of_mem p hq)
    by_cases hc : p.status = completedStatus
    · have he : isExpired today p = false := by simp [isExpired, hc]
      have ht : isDueToday today p = false := by simp [isDueToday, hc]
      have ha : isApproaching today p = false := by simp [isApproaching, hc]
      simp only [glanceCounts, if_pos hc]
      rw [ih e t a hrest]
      simp [List.countP_cons, he, ht, ha]
    · have hd := h p (List.mem_cons_self p rest) hc
      obtain ⟨delta, hdelta⟩ := Option.isSome_iff_exists.mp hd
      have hne : (p.status != completedStatus) = true := by simp [hc]
      have hbe : isExpired today p = decide (delta < 0) := by
        simp [isExpired, hne, hdelta]
      have hbt : isDueToday today p = decide (delta = 0) := by
        simp [isDueToday, hne, hdelta]
      have hba : isApproaching today p = decide (1 ≤ delta ∧ delta < 3) := by
        simp [isApproaching, hne, hdelta]
      simp only [glanceCounts, if_neg hc, hdelta]
      by_cases h1 : delta < 0
      · have hz : ¬delta = 0 := by omega
        have ha3 : ¬(1 ≤ delta ∧ delta < 3) := by omega
        rw [if_pos h1, ih (e + 1) t a hrest]
        simp [List.countP_cons, hbe, hbt, hba, h1, hz, ha3]
        omega
      · by_cases h2 : delta = 0
        · have ha3 : ¬(1 ≤ delta ∧ delta < 3) := by omega
          rw [if_neg h1, if_pos h2, ih e (t + 1) a hrest]
          simp [List.countP_cons, hbe, hbt, hba, h1, h2, ha3]
          omega
        · by_cases h3 : delta < 3
          · have ha3 : 1 ≤ delta ∧ delta < 3 := by omega
            rw [if_neg h1, if_neg h2, if_pos h3, ih e t (a + 1) hrest]
            simp [List.countP_cons, hbe, hbt, hba, h1, h2, ha3]
            omega
          · have ha3 : ¬(1 ≤ delta ∧ delta < 3) := by omega
            rw [if_neg h1, if_neg h2, if_neg h3, ih e t a hrest]
            simp [List.countP_cons, hbe, hbt, hba, h1, h2, ha3]

/-- C9 (confirmed): `jobs_at_a_glance` buckets every non-terminal
project of each job by the parsed calendar-day difference between its
`MM/DD/YYYY` due date and today — counted as expired when the
difference is negative, due today when it is zero, approaching when it
is 1 or 2 — and completed projects are in no bucket. -/
theorem jobs_at_a_glance_buckets (job_dict : List (String × List Project))
    (today : String)
    (h : ∀ jp ∈ job_dict, ∀ p ∈ jp.2, p.status ≠ completedStatus →
      (dateDelta p.due_date today).isSome = true) :
    jobs_at_a_glance job_dict today =
      some (job_dict.map (fun jp =>
        (jp.1, (jp.2.countP (fun p => isExpired today p),
                jp.2.countP (fun p => isDueToday today p),
                jp.2.countP (fun p => isApproaching today p))))) := by
  induction job_dict with
  | nil => rfl
  | cons jp rest ih =>
    obtain ⟨j, ps⟩ := jp
    have hps := h (j, ps) (List.mem_cons_self _ _)
    have hrest := fun q hq => h q (List.mem_cons_of_mem _ hq)
    simp only [jobs_at_a_glance]
    rw [glanceCounts_eq_countP today ps 0 0 0 hps, ih hrest]
    simp

/-- Witness for C9: the spec's concrete scenario — one project due
`01/01/2020`, evaluated with today `01/05/2020`, counts as 1 expired
for its job. -/
theorem jobs_at_a_glance_buckets_witness :
    jobs_at_a_glance
        [("105000",
          [Project.init "105000.177-43" "get drawing" "Brandon" "01/01/2020"
            "Unassigned"])] "01/05/2020" =
      some [("105000", (1, 0, 0))] := by
  rw [jobs_at_a_glance_buckets
    [("105000",
      [Project.init "105000.177-43" "get drawing" "Brandon" "01/01/2020"
        "Unassigned"])] "01/05/2020" (by decide)]
  decide

/-- C6 (confirmed): `JobFolder.save` raises `SecurityError` exactly when
the caller's lock is not currently acquired, and any successful save was
performed with the lock held and wrote the job through `JobIO.save`. -/
theorem jobfolder_save_requires_lock (jf : JobFolder) (fs : FS)
    (on_close : Bool) :
    (JobFolder.save jf fs on_close = Except.error PyError.securityError ↔
      jf.lock_is_acquired = false) ∧
    (∀ fs2 lk, JobFolder.save jf fs on_close = Except.ok (fs2, lk) →
      jf.lock_is_acquired = true ∧
      fs2 = JobIo.save jf.job_num jf.job fs) := by
  cases h : jf.lock_is_acquired with
  | false =>
    constructor
    · simp [JobFolder.save, h]
    · intro fs2 lk hok
      simp [JobFolder.save, h] at hok
  | true =>
    constructor
    · simp [JobFolder.save, h]
    · intro fs2 lk hok
      simp only [JobFolder.save, h, if_true, Except.ok.injEq, Prod.mk.injEq] at hok
      exact ⟨rfl, hok.1.symm⟩

/-- Witness for C6: an unlocked folder's save raises `SecurityError`; a
locked folder's save succeeds and writes the record. -/
theorem jobfolder_save_requires_lock_witness :
    JobFolder.save ⟨"111111", sampleJob, false⟩ (FS.mk [] (fun _ => none))
        false = Except.error PyError.securityError ∧
    ((⟨"111111", sampleJob, true⟩ : JobFolder).lock_is_acquired = true ∧
      JobIo.save "111111" sampleJob (FS.mk [] (fun _ => none)) =
        JobIo.save "111111" sampleJob (FS.mk [] (fun _ => none))) :=
  ⟨(jobfolder_save_requires_lock ⟨"111111", sampleJob, false⟩
      (FS.mk [] (fun _ => none)) false).1.mpr rfl,
   (jobfolder_save_requires_lock ⟨"111111", sampleJob, true⟩
      (FS.mk [] (fun _ => none)) false).2
      (JobIo.save "111111" sampleJob (FS.mk [] (fun _ => none))) true rfl⟩

/-- C7 (confirmed): renaming key `old` to `new` in a well-formed
projects mapping makes `new` resolve to the value previously stored
under `old`; when the keys differ `old` is gone afterwards, and when
`old = new` the mapping is left unchanged with exactly one entry for
that key. -/
theorem update_drawing_num_spec (projects : ProjectDict) (old new : String)
    (v : Project) (hnd : (projects.map Prod.fst).Nodup)
    (hold : dlookup old projects = some v) :
    ∃ d2, update_drawing_num projects old new = some d2 ∧
      dlookup new d2 = some v ∧
      (old ≠ new → dlookup old d2 = none) ∧
      (old = new → d2 = projects ∧
        ((d2.map Prod.fst).count old = 1)) := by
  unfold update_drawing_num
  rw [hold]
  by_cases hne : old ≠ new
  · refine ⟨derase old (dinsert new v projects), by simp [hne], ?_, ?_, ?_⟩
    · rw [dlookup_derase_ne _ (Ne.symm hne), dlookup_dinsert_self]
    · intro _
      exact dlookup_derase_self old _
    · intro heq
      exact absurd heq hne
  · push_neg at hne
    subst hne
    have hins : dinsert old v projects = projects :=
      dinsert_self_of_dlookup hnd hold
    refine ⟨projects, by simp [hins], hold, ?_, ?_⟩
    · intro hcon
      exact absurd rfl hcon
    · intro _
      exact ⟨rfl, List.count_eq_one_of_mem hnd (mem_keys_of_dlookup hold)⟩

/-- Witness for C7 at a one-entry mapping, in both the rename and the
no-op direction. -/
theorem update_drawing_num_spec_witness :
    (∃ d2, update_drawing_num [("111111.01", sampleProject)] "111111.01"
        "111111-01-02-003" = some d2 ∧
      dlookup "111111-01-02-003" d2 = some sampleProject ∧
      ("111111.01" ≠ "111111-01-02-003" →
        dlookup "111111.01" d2 = none) ∧
      ("111111.01" = "111111-01-02-003" →
        d2 = [("111111.01", sampleProject)] ∧
        ((d2.map Prod.fst).count "111111.01" = 1))) ∧
    (∃ d2, update_drawing_num [("111111.01", sampleProject)] "111111.01"
        "111111.01" = some d2 ∧
      dlookup "111111.01" d2 = some sampleProject ∧
      ("111111.01" ≠ "111111.01" → dlookup "111111.01" d2 = none) ∧
      ("111111.01" = "111111.01" →
        d2 = [("111111.01", sampleProject)] ∧
        ((d2.map Prod.fst).count "111111.01" = 1))) :=
  ⟨update_drawing_num_spec [("111111.01", sampleProject)] "111111.01"
      "111111-01-02-003" sampleProject (by simp) (by simp [dlookup]),
   update_drawing_num_spec [("111111.01", sampleProject)] "111111.01"
      "111111.01" sampleProject (by simp) (by simp [dlookup])⟩

/-- Witness for C10: a listing with no hit yields `None`; one with a hit
yields `True`. -/
theorem job_exists_truthiness_witness :
    JobIo.job_exists "999999" ["123456.nuke", "123456.lock"] = none ∧
    JobIo.job_exists "123456" ["123456.nuke"] = some true :=
  ⟨(job_exists_truthiness "999999" ["123456.nuke", "123456.lock"]).1
      (by decide),
   (job_exists_truthiness "123456" ["123456.nuke"]).2.1
      ⟨"123456.nuke", by simp, by decide⟩⟩

end Nucleus
